import Mathlib

/-
Verification of the ghscope analysis core (src/ghscope/core/analysis.py and
src/ghscope/core/models.py) against its natural-language specification.

Modelling conventions:
* Python datetimes are modelled as exact rationals (seconds on a common
  timeline); float arithmetic is modelled by exact arithmetic on ℚ.
* Python `None` is modelled by `Option.none`; fallible code returns `Except`.
* String scanning helpers (lowercasing, stripping, substring and
  word-boundary search) are implemented over `List Char` so that every
  definition evaluates inside the kernel.
-/

namespace GHScope

/-! ## String helpers (ASCII behaviour of `str.lower`, `str.strip`, `in`,
and the word-boundary regex primitives used by `analysis.py`) -/

/-- Lowercase a string character by character (model of `str.lower()`). -/
def strLower (s : String) : String := String.mk (s.toList.map Char.toLower)

/-- The six ASCII whitespace characters recognised by Python's `str.strip`
and `\s`. -/
def pyIsSpace (c : Char) : Bool :=
  c = ' ' || c = '\t' || c = '\n' || c = '\r' || c = '\x0b' || c = '\x0c'

/-- Model of `str.strip()`: drop leading and trailing whitespace. -/
def pyStrip (s : String) : String :=
  String.mk (((s.toList.dropWhile pyIsSpace).reverse.dropWhile pyIsSpace).reverse)

/-- Does the character list start with the given pattern (model of
`str.startswith`)? -/
def startsWithL : List Char → List Char → Bool
  | _, [] => true
  | [], _ :: _ => false
  | c :: cs, p :: ps => c = p && startsWithL cs ps

/-- Does `pat` occur as a contiguous substring of `l` (model of Python's
`pat in l`)? -/
def containsSub (l pat : List Char) : Bool :=
  startsWithL l pat ||
    match l with
    | [] => false
    | _ :: rest => containsSub rest pat

/-- A regex word character (`\w`, restricted to ASCII). -/
def isWordChar (c : Char) : Bool := c.isAlphanum || c = '_'

/-- Does the word `w` occur at the head of `l`, followed by a word boundary
when `rb` is `true`? -/
def wordAt : List Char → List Char → Bool → Bool
  | l, [], rb =>
    !rb || (match l with | [] => true | c :: _ => !isWordChar c)
  | [], _ :: _, _ => false
  | c :: cs, p :: ps, rb => c = p && wordAt cs ps rb

/-- Scan `l` for an occurrence of the word `w` preceded by a word boundary
(and followed by one when `rb` is `true`): the model of `re.search` for the
`\b`-anchored keyword patterns of `categorize_pr`.  `prevIsWord` records
whether the character just before the current position is a word
character. -/
def searchWord (w : List Char) (rb : Bool) : List Char → Bool → Bool
  | l, prevIsWord =>
    ((!prevIsWord) && wordAt l w rb) ||
      match l with
      | [] => false
      | c :: cs => searchWord w rb cs (isWordChar c)

/-! ## Data model (models.py) -/

/-- Model of the `PRSummary` dataclass of `models.py`.  Timestamps are
rational seconds; fields that Python may leave as `None` are `Option`s.
`created_at` is declared required in the dataclass but can still be `None`
when the upstream record carries a null timestamp, so it is an `Option`
here as well. -/
structure PRSummary where
  number : Int
  title : String
  author : String
  state : String
  created_at : Option ℚ
  merged_at : Option ℚ := none
  closed_at : Option ℚ := none
  merged_by : Option String := none
  labels : List String := []
  additions : Int := 0
  deletions : Int := 0
  changed_files : Int := 0
  review_count : Int := 0
  category : String := "other"
  time_to_merge_hours : Option ℚ := none
deriving DecidableEq

/-- Model of the `PRSummary.size` property: XS/S/M/L/XL buckets from
`additions + deletions`. -/
def PRSummary.size (p : PRSummary) : String :=
  let total := p.additions + p.deletions
  if total ≤ 10 then "XS"
  else if total ≤ 50 then "S"
  else if total ≤ 200 then "M"
  else if total ≤ 500 then "L"
  else "XL"

/-- Model of the `PRSummary.age_hours` property.  The wall clock
(`datetime.now`) is passed explicitly as `now`.  Python raises when
`created_at` is `None`, modelled by `none`. -/
def PRSummary.age_hours (now : ℚ) (p : PRSummary) : Option ℚ :=
  p.created_at.map fun c =>
    (((p.merged_at.orElse fun _ => p.closed_at).getD now) - c) / 3600

/-- Model of the `BatchCluster` dataclass of `models.py`. -/
structure BatchCluster where
  merger : String
  count : Nat
  start_time : ℚ
  end_time : ℚ
  prs : List Int
deriving DecidableEq

/-! ## Categorizer (`categorize_pr`, analysis.py lines 53-89) -/

/-- The ordered conventional-commit prefix table of `categorize_pr`. -/
def prefixTable : List (String × String) :=
  [("fix", "fix"), ("bug", "fix"),
   ("feat", "feat"), ("feature", "feat"),
   ("doc", "docs"), ("readme", "docs"),
   ("dep", "deps"), ("bump", "deps"), ("upgrade", "deps"), ("chore(deps)", "deps"),
   ("refactor", "refactor"), ("cleanup", "refactor"), ("clean up", "refactor"),
   ("test", "test"), ("ci", "ci"), ("chore", "chore")]

/-- Does a (lowercased) label trigger one of the label rules of
`categorize_pr`? -/
def labelHit (lab : String) : Bool :=
  containsSub lab.toList "bug".toList || containsSub lab.toList "fix".toList ||
  containsSub lab.toList "feature".toList || containsSub lab.toList "enhancement".toList ||
  containsSub lab.toList "documentation".toList || containsSub lab.toList "docs".toList ||
  containsSub lab.toList "dependencies".toList || containsSub lab.toList "deps".toList

/-- The category returned for the first label that hits, following the
in-order checks of the Python loop body. -/
def labelCat (lab : String) : String :=
  if containsSub lab.toList "bug".toList || containsSub lab.toList "fix".toList then "fix"
  else if containsSub lab.toList "feature".toList || containsSub lab.toList "enhancement".toList then "feat"
  else if containsSub lab.toList "documentation".toList || containsSub lab.toList "docs".toList then "docs"
  else "deps"

/-- Model of `categorize_pr` (analysis.py): conventional-commit prefix
table first, then label substring rules, then title keyword regexes,
otherwise "other". -/
def categorize_pr (title : String) (labels : List String) : String :=
  let title_lower := pyStrip (strLower title)
  let labels_lower := labels.map strLower
  match prefixTable.find? (fun pc => startsWithL title_lower.toList pc.1.toList) with
  | some pc => pc.2
  | none =>
    match labels_lower.find? labelHit with
    | some lab => labelCat lab
    | none =>
      let tl := title_lower.toList
      if searchWord "dependabot".toList true tl false ||
         searchWord "renovate".toList true tl false ||
         searchWord "bump".toList true tl false then "deps"
      else if searchWord "fix".toList true tl false ||
              searchWord "fixes".toList true tl false ||
              searchWord "fixed".toList true tl false then "fix"
      else if searchWord "add".toList true tl false ||
              searchWord "adds".toList true tl false ||
              searchWord "added".toList true tl false ||
              searchWord "implement".toList true tl false then "feat"
      else "other"

/-! Spec-side rendering of §4.2: the three rule stages as `Option`-valued
functions, composed in the stated priority order. -/

/-- First-match recursion: the value of `f` at the first element satisfying
`p`, scanning left to right. -/
def firstSome {α β : Type} (p : α → Bool) (f : α → β) : List α → Option β
  | [] => none
  | a :: rest => if p a then some (f a) else firstSome p f rest

theorem firstSome_eq_find? {α β : Type} (p : α → Bool) (f : α → β) (l : List α) :
    firstSome p f l = (l.find? p).map f := by
  induction l with
  | nil => rfl
  | cons a rest ih =>
    by_cases h : p a = true
    · simp [firstSome, List.find?, h]
    · simp only [Bool.not_eq_true] at h
      simp [firstSome, List.find?, h, ih]

/-- Modelled from the spec (§4.2, stage 1): first matching prefix in table
order wins, rendered as explicit first-match recursion over the ordered
table. -/
def specPrefixStage (tl : List Char) (tbl : List (String × String)) : Option String :=
  firstSome (fun pc => startsWithL tl pc.1.toList) (·.2) tbl

/-- Modelled from the spec (§4.2, stage 2): substring match against label
names, first hitting label wins. -/
def specLabelStage (labs : List String) : Option String :=
  firstSome labelHit labelCat labs

/-- Modelled from the spec (§4.2, stage 3): regex keyword match on the
title. -/
def specKeywordStage (tl : List Char) : Option String :=
  if searchWord "dependabot".toList true tl false ||
     searchWord "renovate".toList true tl false ||
     searchWord "bump".toList true tl false then some "deps"
  else if searchWord "fix".toList true tl false ||
          searchWord "fixes".toList true tl false ||
          searchWord "fixed".toList true tl false then some "fix"
  else if searchWord "add".toList true tl false ||
          searchWord "adds".toList true tl false ||
          searchWord "added".toList true tl false ||
          searchWord "implement".toList true tl false then some "feat"
  else none

/-- Modelled from the spec (§4.2): the composition of the three stages with
the `other` fallback. -/
def specCategorize (title : String) (labels : List String) : String :=
  let tl := (pyStrip (strLower title)).toList
  (((specPrefixStage tl prefixTable).orElse fun _ =>
      specLabelStage (labels.map strLower)).orElse fun _ =>
    specKeywordStage tl).getD "other"

/-- C8: `categorize_pr` applies the ordered conventional-commit prefix
table first (first matching prefix in table order wins), then the label
substring rules, then the title keyword regexes, and otherwise returns
"other"; in particular `categorize_pr "fix: null check" [] = "fix"`,
`categorize_pr "Bump lodash from 1 to 2" [] = "deps"`, and
`categorize_pr "random change" [] = "other"`. -/
theorem categorize_pr_stage_order :
    (∀ title labels, categorize_pr title labels = specCategorize title labels) ∧
    categorize_pr "fix: null check" [] = "fix" ∧
    categorize_pr "Bump lodash from 1 to 2" [] = "deps" ∧
    categorize_pr "random change" [] = "other" := by
  refine ⟨fun title labels => ?_, by decide, by decide, by decide⟩
  simp only [categorize_pr, specCategorize, specPrefixStage, specLabelStage,
    firstSome_eq_find?]
  cases hp : List.find? (fun pc => startsWithL (pyStrip (strLower title)).toList pc.1.toList) prefixTable with
  | some pc => simp [Option.orElse]
  | none =>
    cases hl : List.find? labelHit (labels.map strLower) with
    | some lab => simp [Option.orElse]
    | none =>
      simp only [Option.map_none, Option.orElse, Option.getD, specKeywordStage]
      split_ifs <;> rfl

/-! ## Merge-time statistics (`compute_merge_times`, analysis.py lines
92-103), with the Python `statistics.median` and `statistics.quantiles`
(default `method='exclusive'`, `n=4`) algorithms embedded. -/

/-- Ascending sort (model of Python `sorted`). -/
def pySort (l : List ℚ) : List ℚ := l.insertionSort (· ≤ ·)

/-- Model of `statistics.median`: middle element of the sorted data for odd
length, mean of the two middle elements for even length.  (Python raises on
empty input; callers guard, and the `0` default is unreachable there.) -/
def pyMedian (l : List ℚ) : ℚ :=
  let s := pySort l
  let n := s.length
  if n % 2 = 1 then s.getD (n / 2) 0
  else (s.getD (n / 2 - 1) 0 + s.getD (n / 2) 0) / 2

/-- Model of Python `min` over a nonempty list. -/
def pyMin (l : List ℚ) : ℚ :=
  match l with
  | [] => 0
  | x :: xs => xs.foldl min x

/-- Model of Python `max` over a nonempty list. -/
def pyMax (l : List ℚ) : ℚ :=
  match l with
  | [] => 0
  | x :: xs => xs.foldl max x

/-- One interpolated quartile point of `statistics.quantiles(data, n=4,
method='exclusive')`: `j, delta = divmod(i * (ld + 1), 4)`, `j` clamped to
`[1, ld - 1]`, then linear interpolation between the sorted data at `j - 1`
and `j`. -/
def qPoint (s : List ℚ) (ld i : ℕ) : ℚ :=
  let m := ld + 1
  let j0 := i * m / 4
  let delta := i * m % 4
  let j := if j0 < 1 then 1 else if j0 > ld - 1 then ld - 1 else j0
  (s.getD (j - 1) 0 * ((4 - delta : ℕ) : ℚ) + s.getD j 0 * (delta : ℚ)) / 4

/-- Model of `statistics.quantiles(data, n=4)` (exclusive method): the three
quartile points. -/
def pyQuantiles4 (l : List ℚ) : List ℚ :=
  let s := pySort l
  let ld := s.length
  [qPoint s ld 1, qPoint s ld 2, qPoint s ld 3]

/-- The list comprehension `[pr.time_to_merge_hours for pr in prs if
pr.time_to_merge_hours is not None]`. -/
def mergeTimesOf (prs : List PRSummary) : List ℚ :=
  prs.filterMap (·.time_to_merge_hours)

/-- Model of `compute_merge_times`: `(median, p25, p75)` with the degenerate
fallbacks of the source. -/
def compute_merge_times (prs : List PRSummary) : ℚ × ℚ × ℚ :=
  let times := mergeTimesOf prs
  if times = [] then (0, 0, 0)
  else if times.length = 1 then (times.headD 0, times.headD 0, times.headD 0)
  else
    let med := pyMedian times
    if times.length < 4 then (med, pyMin times, pyMax times)
    else
      let q := pyQuantiles4 times
      (med, q.getD 0 0, q.getD 2 0)

theorem pySort_sorted (l : List ℚ) : (pySort l).Sorted (· ≤ ·) :=
  List.sorted_insertionSort _ l

theorem pySort_length (l : List ℚ) : (pySort l).length = l.length :=
  (List.perm_insertionSort _ l).length_eq

/-- Index monotonicity on a sorted list, phrased with `getD`. -/
theorem sorted_getD_mono (l : List ℚ) (hs : l.Sorted (· ≤ ·)) {i j : ℕ}
    (hij : i ≤ j) (hj : j < l.length) : l.getD i 0 ≤ l.getD j 0 := by
  have hi : i < l.length := lt_of_le_of_lt hij hj
  rw [List.getD_eq_getElem?_getD, List.getD_eq_getElem?_getD,
    List.getElem?_eq_getElem hi, List.getElem?_eq_getElem hj]
  simpa using List.Sorted.rel_get_of_le hs (a := ⟨i, hi⟩) (b := ⟨j, hj⟩)
    (Fin.mk_le_mk.mpr hij)

/-- A weight-`d`-of-4 interpolation between `a ≤ b` lies between `a` and
`b`. -/
theorem convex_between (a b : ℚ) (d : ℕ) (hd : d ≤ 4) (hab : a ≤ b) :
    a ≤ (a * ((4 - d : ℕ) : ℚ) + b * (d : ℚ)) / 4 ∧
    (a * ((4 - d : ℕ) : ℚ) + b * (d : ℚ)) / 4 ≤ b := by
  have hcast : ((4 - d : ℕ) : ℚ) = 4 - (d : ℚ) := by
    rw [Nat.cast_sub hd]; norm_num
  have hd0 : (0 : ℚ) ≤ (d : ℚ) := Nat.cast_nonneg d
  have hd4 : (d : ℚ) ≤ 4 := by exact_mod_cast hd
  rw [hcast]
  constructor
  · rw [le_div_iff₀ (by norm_num)]
    nlinarith [mul_nonneg (sub_nonneg.mpr hab) hd0]
  · rw [div_le_iff₀ (by norm_num)]
    nlinarith [mul_nonneg (sub_nonneg.mpr hab) (sub_nonneg.mpr hd4)]

/-- The Python median lies between the lower and upper middle elements of
the sorted data. -/
theorem pyMedian_bounds (l : List ℚ) (h1 : 1 ≤ l.length) :
    (pySort l).getD ((l.length - 1) / 2) 0 ≤ pyMedian l ∧
    pyMedian l ≤ (pySort l).getD (l.length / 2) 0 := by
  have hlen := pySort_length l
  have hs := pySort_sorted l
  unfold pyMedian
  simp only [hlen]
  rcases Nat.even_or_odd l.length with he | ho
  · have hmod : l.length % 2 ≠ 1 := by
      rcases he with ⟨k, hk⟩; omega
    rw [if_neg hmod]
    have hidx : (l.length - 1) / 2 = l.length / 2 - 1 := by
      rcases he with ⟨k, hk⟩; omega
    have hlt : l.length / 2 < (pySort l).length := by rw [hlen]; omega
    have hmono : (pySort l).getD (l.length / 2 - 1) 0 ≤ (pySort l).getD (l.length / 2) 0 :=
      sorted_getD_mono _ hs (by omega) hlt
    rw [hidx]
    constructor <;> linarith
  · have hmod : l.length % 2 = 1 := Nat.odd_iff.mp ho
    rw [if_pos hmod]
    have hidx : (l.length - 1) / 2 = l.length / 2 := by omega
    rw [hidx]
    exact ⟨le_refl _, le_refl _⟩

/-- The first quartile point is below the median for data of length at
least 4. -/
theorem qPoint1_le_median (l : List ℚ) (h4 : 4 ≤ l.length) :
    qPoint (pySort l) l.length 1 ≤ pyMedian l := by
  have hlen := pySort_length l
  have hs := pySort_sorted l
  set n := l.length with hn
  simp only [qPoint]
  have hj1 : ¬ 1 * (n + 1) / 4 < 1 := by omega
  have hj2 : ¬ 1 * (n + 1) / 4 > n - 1 := by omega
  rw [if_neg hj1, if_neg hj2]
  set j := 1 * (n + 1) / 4 with hj
  have hjn : j < n := by omega
  have hab : (pySort l).getD (j - 1) 0 ≤ (pySort l).getD j 0 :=
    sorted_getD_mono _ hs (by omega) (by omega)
  have hconv := (convex_between _ _ (1 * (n + 1) % 4)
    (le_of_lt (Nat.mod_lt _ (by norm_num))) hab).2
  refine le_trans hconv (le_trans ?_ (pyMedian_bounds l (by omega)).1)
  exact sorted_getD_mono _ hs (by omega) (by omega)

/-- The third quartile point is above the median for data of length at
least 4. -/
theorem median_le_qPoint3 (l : List ℚ) (h4 : 4 ≤ l.length) :
    pyMedian l ≤ qPoint (pySort l) l.length 3 := by
  have hlen := pySort_length l
  have hs := pySort_sorted l
  set n := l.length with hn
  simp only [qPoint]
  have hj1 : ¬ 3 * (n + 1) / 4 < 1 := by omega
  have hj2 : ¬ 3 * (n + 1) / 4 > n - 1 := by omega
  rw [if_neg hj1, if_neg hj2]
  set j := 3 * (n + 1) / 4 with hj
  have hjn : j < n := by omega
  have hab : (pySort l).getD (j - 1) 0 ≤ (pySort l).getD j 0 :=
    sorted_getD_mono _ hs (by omega) (by omega)
  have hconv := (convex_between _ _ (3 * (n + 1) % 4)
    (le_of_lt (Nat.mod_lt _ (by norm_num))) hab).1
  refine le_trans (le_trans (pyMedian_bounds l (by omega)).2 ?_) hconv
  exact sorted_getD_mono _ hs (by omega) (by omega)

/-- C2: `compute_merge_times` filters to entries with a defined
`time_to_merge_hours` and returns (0,0,0) when there are none, the single
value repeated three times when there is exactly one, (median, min, max)
for two or three values, and otherwise (median, p25, p75) by the
linear-interpolation quartile method; with at least 4 defined values,
p25 ≤ median ≤ p75. -/
theorem compute_merge_times_cases (prs : List PRSummary) :
    (mergeTimesOf prs = [] → compute_merge_times prs = (0, 0, 0)) ∧
    ((mergeTimesOf prs).length = 1 →
      compute_merge_times prs =
        ((mergeTimesOf prs).headD 0, (mergeTimesOf prs).headD 0, (mergeTimesOf prs).headD 0)) ∧
    (2 ≤ (mergeTimesOf prs).length → (mergeTimesOf prs).length ≤ 3 →
      compute_merge_times prs =
        (pyMedian (mergeTimesOf prs), pyMin (mergeTimesOf prs), pyMax (mergeTimesOf prs))) ∧
    (4 ≤ (mergeTimesOf prs).length →
      compute_merge_times prs =
        (pyMedian (mergeTimesOf prs),
         qPoint (pySort (mergeTimesOf prs)) (mergeTimesOf prs).length 1,
         qPoint (pySort (mergeTimesOf prs)) (mergeTimesOf prs).length 3) ∧
      qPoint (pySort (mergeTimesOf prs)) (mergeTimesOf prs).length 1 ≤ pyMedian (mergeTimesOf prs) ∧
      pyMedian (mergeTimesOf prs) ≤ qPoint (pySort (mergeTimesOf prs)) (mergeTimesOf prs).length 3) := by
  refine ⟨fun h => ?_, fun h => ?_, fun h2 h3 => ?_, fun h4 => ?_⟩
  · simp [compute_merge_times, h]
  · have hne : mergeTimesOf prs ≠ [] := List.length_pos.mp (by omega)
    simp [compute_merge_times, hne, h]
  · have hne : mergeTimesOf prs ≠ [] := List.length_pos.mp (by omega)
    have h1 : (mergeTimesOf prs).length ≠ 1 := by omega
    have hlt : (mergeTimesOf prs).length < 4 := by omega
    simp [compute_merge_times, hne, h1, hlt]
  · have hne : mergeTimesOf prs ≠ [] := List.length_pos.mp (by omega)
    have h1 : (mergeTimesOf prs).length ≠ 1 := by omega
    have hlt : ¬ (mergeTimesOf prs).length < 4 := by omega
    refine ⟨?_, qPoint1_le_median _ h4, median_le_qPoint3 _ h4⟩
    simp [compute_merge_times, hne, h1, hlt, pyQuantiles4, pySort_length]

/-- Four merged PRs exercising the quartile branch of
`compute_merge_times`. -/
def mtDemo : List PRSummary :=
  [{ number := 1, title := "", author := "a", state := "MERGED", created_at := none,
     time_to_merge_hours := some 4 },
   { number := 2, title := "", author := "a", state := "MERGED", created_at := none,
     time_to_merge_hours := some 1 },
   { number := 3, title := "", author := "a", state := "MERGED", created_at := none,
     time_to_merge_hours := some 3 },
   { number := 4, title := "", author := "a", state := "MERGED", created_at := none,
     time_to_merge_hours := some 2 }]

/-- Witness for C2 at a concrete 4-element input. -/
theorem compute_merge_times_cases_witness :
    4 ≤ (mergeTimesOf mtDemo).length ∧
    (compute_merge_times mtDemo =
      (pyMedian (mergeTimesOf mtDemo),
       qPoint (pySort (mergeTimesOf mtDemo)) (mergeTimesOf mtDemo).length 1,
       qPoint (pySort (mergeTimesOf mtDemo)) (mergeTimesOf mtDemo).length 3) ∧
     qPoint (pySort (mergeTimesOf mtDemo)) (mergeTimesOf mtDemo).length 1 ≤
       pyMedian (mergeTimesOf mtDemo) ∧
     pyMedian (mergeTimesOf mtDemo) ≤
       qPoint (pySort (mergeTimesOf mtDemo)) (mergeTimesOf mtDemo).length 3) :=
  ⟨by decide, (compute_merge_times_cases mtDemo).2.2.2 (by decide)⟩

/-! ## Batch-merge detector (`detect_batch_merges`, analysis.py lines
106-142) -/

/-- Python truthiness of an optional string: `None` and `""` are falsy. -/
def optStrTruthy : Option String → Bool
  | none => false
  | some s => s != ""

/-- Build a `BatchCluster` from a run, with the fields of the source
(first member's merger and merge time, last member's merge time, member
numbers in order). -/
def mkCluster (group : List PRSummary) : BatchCluster :=
  { merger := (group.head?.bind (·.merged_by)).getD ""
    count := group.length
    start_time := (group.head?.bind (·.merged_at)).getD 0
    end_time := (group.getLast?.bind (·.merged_at)).getD 0
    prs := group.map (·.number) }

/-- The greedy forward scan of `detect_batch_merges`: extend the current
run while the next item has the same merger as the run's last member and
follows it by strictly less than the window; on a break emit the run only
when it has at least 3 members and restart from the breaking item; flush
the final run under the same rule. -/
def batchLoop (window_minutes : ℚ) : List PRSummary → List PRSummary → List BatchCluster
  | group, [] => if 3 ≤ group.length then [mkCluster group] else []
  | group, pr :: rest =>
    if pr.merged_by = ((group.getLast?).getD pr).merged_by ∧
        pr.merged_at.getD 0 - ((group.getLast?).getD pr).merged_at.getD 0 <
          window_minutes * 60 then
      batchLoop window_minutes (group ++ [pr]) rest
    else
      (if 3 ≤ group.length then [mkCluster group] else []) ++
        batchLoop window_minutes [pr] rest

/-- Model of `detect_batch_merges`: filter to PRs with truthy `merged_at`
and `merged_by`, sort ascending by merge time, then run the greedy scan. -/
def detect_batch_merges (prs : List PRSummary) (window_minutes : ℚ) : List BatchCluster :=
  let merged := prs.filter (fun p => p.merged_at.isSome && optStrTruthy p.merged_by)
  let sorted := merged.insertionSort (fun a b => a.merged_at.getD 0 ≤ b.merged_at.getD 0)
  match sorted with
  | [] => []
  | first :: rest => batchLoop window_minutes [first] rest

theorem batchLoop_min3 (w : ℚ) :
    ∀ (rest group : List PRSummary) (c : BatchCluster),
      c ∈ batchLoop w group rest → 3 ≤ c.count := by
  intro rest
  induction rest with
  | nil =>
    intro group c hc
    simp only [batchLoop] at hc
    split at hc
    · simp only [List.mem_singleton] at hc
      subst hc
      simpa [mkCluster] using ‹3 ≤ group.length›
    · simp at hc
  | cons pr rest ih =>
    intro group c hc
    simp only [batchLoop] at hc
    split at hc
    · exact ih _ _ hc
    · rcases List.mem_append.mp hc with h | h
      · split at h
        · simp only [List.mem_singleton] at h
          subst h
          simpa [mkCluster] using ‹3 ≤ group.length›
        · simp at h
      · exact ih _ _ h

/-- Five merges by the same actor, one minute apart. -/
def batchDemo : List PRSummary :=
  [{ number := 1, title := "", author := "a", state := "MERGED", created_at := none,
     merged_at := some 0, merged_by := some "alice" },
   { number := 2, title := "", author := "a", state := "MERGED", created_at := none,
     merged_at := some 60, merged_by := some "alice" },
   { number := 3, title := "", author := "a", state := "MERGED", created_at := none,
     merged_at := some 120, merged_by := some "alice" },
   { number := 4, title := "", author := "a", state := "MERGED", created_at := none,
     merged_at := some 180, merged_by := some "alice" },
   { number := 5, title := "", author := "a", state := "MERGED", created_at := none,
     merged_at := some 240, merged_by := some "alice" }]

/-- The single cluster emitted for `batchDemo`. -/
def batchDemoCluster : BatchCluster :=
  { merger := "alice", count := 5, start_time := 0, end_time := 240,
    prs := [1, 2, 3, 4, 5] }

/-- C3: `detect_batch_merges` never emits a cluster with fewer than 3
members, and for 5 merges by the same actor each 1 minute apart with a
30-minute window it emits exactly one cluster of 5. -/
theorem detect_batch_merges_min3 :
    (∀ (prs : List PRSummary) (w : ℚ) (c : BatchCluster),
        c ∈ detect_batch_merges prs w → 3 ≤ c.count) ∧
    detect_batch_merges batchDemo 30 = [batchDemoCluster] := by
  constructor
  · intro prs w c hc
    simp only [detect_batch_merges] at hc
    split at hc
    · simp at hc
    · exact batchLoop_min3 w _ _ c hc
  · with_unfolding_all decide

/-- Witness for the membership hypothesis of C3 at the concrete run. -/
theorem detect_batch_merges_min3_witness :
    batchDemoCluster ∈ detect_batch_merges batchDemo 30 ∧ 3 ≤ batchDemoCluster.count :=
  ⟨by with_unfolding_all decide,
   detect_batch_merges_min3.1 batchDemo 30 batchDemoCluster (by with_unfolding_all decide)⟩

/-! ## Spam detector (`detect_spam_prs`, analysis.py lines 273-296) -/

/-- Model of the anchored case-insensitive regex
`^(update|edit|patch|change)\s+(readme|file|code)` under `re.match`. -/
def genericTitleMatch (title : String) : Bool :=
  let t := (strLower title).toList
  ["update", "edit", "patch", "change"].any fun w1 =>
    startsWithL t w1.toList &&
      (let rest := t.drop w1.length
       !(rest.takeWhile pyIsSpace).isEmpty &&
         (["readme", "file", "code"].any fun w2 =>
           startsWithL (rest.dropWhile pyIsSpace) w2.toList))

/-- The authors with at least one `MERGED` PR in the whole input population
(the `merged_authors` set of the source). -/
def mergedAuthorsOf (prs : List PRSummary) : List String :=
  (prs.filter (fun p => p.state = "MERGED")).map (·.author)

/-- The per-PR spam test of the source loop: only CLOSED PRs; fast-close
with a merge-less author, else generic title with a merge-less author. -/
def spamCheck (merged_authors : List String) (pr : PRSummary) : Bool :=
  if pr.state ≠ "CLOSED" then false
  else
    match pr.closed_at, pr.created_at with
    | some c, some cr =>
      if (c - cr) / 60 < 5 ∧ pr.author ∉ merged_authors then true
      else genericTitleMatch pr.title && decide (pr.author ∉ merged_authors)
    | _, _ => genericTitleMatch pr.title && decide (pr.author ∉ merged_authors)

/-- Model of `detect_spam_prs`. -/
def detect_spam_prs (prs : List PRSummary) : List PRSummary :=
  prs.filter (spamCheck (mergedAuthorsOf prs))

/-- The claim's characterisation: state CLOSED and ((a) closed within 5
minutes of creation with a merge-less author, or (b) generic title with a
merge-less author). -/
def spamSpecB (prs : List PRSummary) (pr : PRSummary) : Bool :=
  decide (pr.state = "CLOSED") &&
    ((match pr.closed_at, pr.created_at with
      | some c, some cr => decide (c - cr < 300)
      | _, _ => false) && decide (pr.author ∉ mergedAuthorsOf prs) ||
     genericTitleMatch pr.title && decide (pr.author ∉ mergedAuthorsOf prs))

theorem spamCheck_eq_spec (prs : List PRSummary) (pr : PRSummary) :
    spamCheck (mergedAuthorsOf prs) pr = spamSpecB prs pr := by
  by_cases hst : pr.state = "CLOSED"
  · cases hcl : pr.closed_at with
    | none => simp [spamCheck, spamSpecB, hst, hcl]
    | some c =>
      cases hcr : pr.created_at with
      | none => simp [spamCheck, spamSpecB, hst, hcl, hcr]
      | some cr =>
        by_cases hauth : pr.author ∈ mergedAuthorsOf prs
        · by_cases hfast : (c - cr) / 60 < 5 <;>
            simp [spamCheck, spamSpecB, hst, hcl, hcr, hauth, hfast]
        · by_cases hfast : (c - cr) / 60 < 5
          · have h300 : c - cr < 300 := by
              have h60 := (div_lt_iff₀ (by norm_num : (0:ℚ) < 60)).mp hfast
              linarith
            simp [spamCheck, spamSpecB, hst, hcl, hcr, hauth, hfast, h300]
          · have h300 : ¬ c - cr < 300 := by
              intro h
              exact hfast ((div_lt_iff₀ (by norm_num : (0:ℚ) < 60)).mpr (by linarith))
            simp [spamCheck, spamSpecB, hst, hcl, hcr, hauth, hfast, h300]
  · simp [spamCheck, spamSpecB, hst]

/-- C6: `detect_spam_prs` returns exactly those input PRs with state
CLOSED that are (a) closed within 5 minutes with a merge-less author or
(b) generically titled with a merge-less author; MERGED or OPEN PRs are
never returned, so an all-OPEN input yields []. -/
theorem detect_spam_prs_spec (prs : List PRSummary) :
    detect_spam_prs prs = prs.filter (spamSpecB prs) ∧
    (∀ pr ∈ detect_spam_prs prs, pr.state = "CLOSED") ∧
    ((∀ pr ∈ prs, pr.state = "OPEN") → detect_spam_prs prs = []) := by
  refine ⟨List.filter_congr fun pr _ => spamCheck_eq_spec prs pr, ?_, ?_⟩
  · intro pr hpr
    have hchk := List.of_mem_filter hpr
    by_contra hst
    unfold spamCheck at hchk
    rw [if_pos hst] at hchk
    exact Bool.false_ne_true hchk
  · intro hall
    apply List.filter_eq_nil_iff.mpr
    intro pr hpr
    unfold spamCheck
    rw [if_pos (by simp [hall pr hpr])]
    simp

/-- All-OPEN input for the C6 witness. -/
def spamOpenDemo : List PRSummary :=
  [{ number := 1, title := "update readme", author := "x", state := "OPEN",
     created_at := some 0 },
   { number := 2, title := "fix: y", author := "y", state := "OPEN",
     created_at := some 10 }]

/-- Witness for C6: the all-OPEN input yields the empty list. -/
theorem detect_spam_prs_spec_witness :
    (∀ pr ∈ spamOpenDemo, pr.state = "OPEN") ∧ detect_spam_prs spamOpenDemo = [] :=
  ⟨by decide, (detect_spam_prs_spec spamOpenDemo).2.2 (by decide)⟩

/-! ## Bus-factor calculator (`compute_bus_factor`, analysis.py lines
340-360) -/

/-- Counter update: bump the count for key `k`, keeping first-occurrence
order (the iteration order of a Python `Counter`). -/
def bumpCount : List (String × ℕ) → String → List (String × ℕ)
  | [], k => [(k, 1)]
  | (k', c) :: rest, k =>
    if k' = k then (k', c + 1) :: rest else (k', c) :: bumpCount rest k

/-- Model of `Counter(keys)`. -/
def countsOf (keys : List String) : List (String × ℕ) := keys.foldl bumpCount []

/-- Model of `Counter.most_common()`: stable sort, count descending. -/
def mostCommon (l : List (String × ℕ)) : List (String × ℕ) :=
  l.insertionSort (fun a b => b.2 ≤ a.2)

/-- The accumulation loop of `compute_bus_factor`: add mergers until the
cumulative share reaches one half, then stop. -/
def busLoop (total : ℕ) : List (String × ℕ) → ℕ → ℕ → ℕ
  | [], _, bf => bf
  | (_, c) :: rest, cum, bf =>
    if (1 : ℚ) / 2 ≤ ((cum + c : ℕ) : ℚ) / (total : ℚ) then bf + 1
    else busLoop total rest (cum + c) (bf + 1)

/-- The filter of `compute_bus_factor`: merges with a truthy merger inside
the lookback window (`merged_at > now - days`, naive comparison). -/
def recentMergedOf (now : ℚ) (prs : List PRSummary) (days : ℤ) : List PRSummary :=
  prs.filter fun p =>
    p.merged_at.isSome && optStrTruthy p.merged_by &&
      decide (now - (days : ℚ) * 86400 < p.merged_at.getD 0)

/-- Model of `compute_bus_factor` (the wall clock is passed explicitly). -/
def compute_bus_factor (now : ℚ) (prs : List PRSummary) (days : ℤ) :
    ℕ × List (String × ℕ) :=
  let recent := recentMergedOf now prs days
  if recent = [] then (0, [])
  else
    let merger_counts := countsOf (recent.map (fun p => p.merged_by.getD ""))
    let total := (merger_counts.map (·.2)).sum
    let sorted_mergers := mostCommon merger_counts
    (busLoop total sorted_mergers 0 0, sorted_mergers.take 10)

/-- Sum of counts over the first `k` entries. -/
def prefixCount (l : List (String × ℕ)) (k : ℕ) : ℕ := ((l.take k).map (·.2)).sum

theorem prefixCount_zero (l : List (String × ℕ)) : prefixCount l 0 = 0 := rfl

theorem prefixCount_cons (x : String × ℕ) (l : List (String × ℕ)) (k : ℕ) :
    prefixCount (x :: l) (k + 1) = x.2 + prefixCount l k := by
  simp [prefixCount, List.take_succ_cons]

/-- The half-share test of the source, converted to naturals. -/
theorem half_le_iff (a t : ℕ) (ht : 0 < t) :
    ((1 : ℚ) / 2 ≤ (a : ℚ) / (t : ℚ)) ↔ t ≤ 2 * a := by
  have ht' : (0 : ℚ) < (t : ℚ) := by exact_mod_cast ht
  rw [div_le_div_iff₀ (by norm_num) ht']
  constructor
  · intro h
    have : (t : ℚ) ≤ 2 * (a : ℚ) := by linarith
    exact_mod_cast this
  · intro h
    have : (t : ℚ) ≤ 2 * (a : ℚ) := by exact_mod_cast h
    linarith

theorem busLoop_spec (total : ℕ) (htot : 0 < total) :
    ∀ (L : List (String × ℕ)) (cum bf : ℕ),
      2 * cum < total → total ≤ 2 * (cum + ((L.map (·.2)).sum)) →
      ∃ k, busLoop total L cum bf = bf + k ∧ 1 ≤ k ∧ k ≤ L.length ∧
        total ≤ 2 * (cum + prefixCount L k) ∧
        ∀ j, j < k → 2 * (cum + prefixCount L j) < total := by
  intro L
  induction L with
  | nil =>
    intro cum bf hlt hge
    simp only [List.map_nil, List.sum_nil, Nat.add_zero] at hge
    omega
  | cons hd rest ih =>
    intro cum bf hlt hge
    obtain ⟨name, c⟩ := hd
    by_cases hbr : (1 : ℚ) / 2 ≤ ((cum + c : ℕ) : ℚ) / (total : ℚ)
    · have hhalf : total ≤ 2 * (cum + c) := (half_le_iff _ _ htot).mp hbr
      refine ⟨1, ?_, le_refl 1, by simp, ?_, ?_⟩
      · unfold busLoop
        rw [if_pos hbr]
      · simpa [prefixCount_cons] using hhalf
      · intro j hj
        interval_cases j
        simpa [prefixCount_zero] using hlt
    · have hnot : ¬ total ≤ 2 * (cum + c) := fun h => hbr ((half_le_iff _ _ htot).mpr h)
      have hge' : total ≤ 2 * (cum + c + ((rest.map (·.2)).sum)) := by
        simp only [List.map_cons, List.sum_cons] at hge
        omega
      obtain ⟨k, hk, h1, hlen, hcum, hbefore⟩ := ih (cum + c) (bf + 1) (by omega) hge'
      refine ⟨k + 1, ?_, by omega, by simpa using Nat.succ_le_succ hlen, ?_, ?_⟩
      · unfold busLoop
        rw [if_neg hbr, hk]
        omega
      · simpa [prefixCount_cons, Nat.add_assoc] using hcum
      · intro j hj
        cases j with
        | zero => simpa [prefixCount_zero] using hlt
        | succ j' =>
          have := hbefore j' (by omega)
          simpa [prefixCount_cons, Nat.add_assoc] using this

theorem bumpCount_sum (l : List (String × ℕ)) (k : String) :
    ((bumpCount l k).map (·.2)).sum = ((l.map (·.2)).sum) + 1 := by
  induction l with
  | nil => simp [bumpCount]
  | cons hd rest ih =>
    obtain ⟨k', c⟩ := hd
    by_cases h : k' = k
    · simp [bumpCount, h]
      omega
    · simp [bumpCount, h, ih]
      omega

theorem countsOf_sum (keys : List String) :
    ((countsOf keys).map (·.2)).sum = keys.length := by
  suffices h : ∀ acc : List (String × ℕ),
      (((keys.foldl bumpCount acc)).map (·.2)).sum = ((acc.map (·.2)).sum) + keys.length by
    simpa using h []
  induction keys with
  | nil => intro acc; simp
  | cons k rest ih =>
    intro acc
    simp only [List.foldl_cons, List.length_cons, ih (bumpCount acc k), bumpCount_sum]
    omega

/-- The sorted merger list of `compute_bus_factor`, for stating C7. -/
def sortedMergersOf (now : ℚ) (prs : List PRSummary) (days : ℤ) : List (String × ℕ) :=
  mostCommon (countsOf ((recentMergedOf now prs days).map (fun p => p.merged_by.getD "")))

/-- The qualifying-merge total of `compute_bus_factor`, for stating C7. -/
def recentTotalOf (now : ℚ) (prs : List PRSummary) (days : ℤ) : ℕ :=
  ((sortedMergersOf now prs days).map (·.2)).sum

theorem mostCommon_sum (l : List (String × ℕ)) :
    ((mostCommon l).map (·.2)).sum = ((l.map (·.2)).sum) := by
  unfold mostCommon
  exact List.Perm.sum_eq (List.Perm.map _ (List.perm_insertionSort _ l))

/-- C7: `compute_bus_factor` returns `(0, [])` when no PR qualifies (both
timestamps and merger present, inside the lookback window) — in particular
on empty input, never dividing by zero; otherwise the returned bus factor
is the count of mergers accumulated in descending merge-count order until
their cumulative count first reaches at least half of all qualifying
merges. -/
theorem compute_bus_factor_spec (now : ℚ) (prs : List PRSummary) (days : ℤ) :
    (recentMergedOf now prs days = [] → compute_bus_factor now prs days = (0, [])) ∧
    (recentMergedOf now prs days ≠ [] →
      1 ≤ (compute_bus_factor now prs days).1 ∧
      (compute_bus_factor now prs days).1 ≤ (sortedMergersOf now prs days).length ∧
      recentTotalOf now prs days ≤
        2 * prefixCount (sortedMergersOf now prs days) (compute_bus_factor now prs days).1 ∧
      ∀ j, j < (compute_bus_factor now prs days).1 →
        2 * prefixCount (sortedMergersOf now prs days) j < recentTotalOf now prs days) := by
  constructor
  · intro h
    simp [compute_bus_factor, h]
  · intro h
    have hlenpos : 0 < (recentMergedOf now prs days).length := List.length_pos.mpr h
    have htotal : recentTotalOf now prs days = (recentMergedOf now prs days).length := by
      unfold recentTotalOf sortedMergersOf
      rw [mostCommon_sum, countsOf_sum, List.length_map]
    have htot : 0 < recentTotalOf now prs days := by omega
    have hcode : compute_bus_factor now prs days =
        (busLoop (recentTotalOf now prs days) (sortedMergersOf now prs days) 0 0,
         (sortedMergersOf now prs days).take 10) := by
      unfold compute_bus_factor
      rw [if_neg h]
      unfold recentTotalOf sortedMergersOf
      rw [mostCommon_sum]
    obtain ⟨k, hk, h1, hlen, hcum, hbefore⟩ :=
      busLoop_spec (recentTotalOf now prs days) htot (sortedMergersOf now prs days) 0 0
        (by omega) (by unfold recentTotalOf; omega)
    rw [hcode]
    simp only [Nat.zero_add] at hk
    rw [hk]
    simp only [Nat.zero_add] at hcum hbefore
    exact ⟨h1, hlen, hcum, hbefore⟩

/-- Four qualifying merges, three by one actor: bus factor 1. -/
def busDemo : List PRSummary :=
  [{ number := 1, title := "", author := "a", state := "MERGED", created_at := none,
     merged_at := some 0, merged_by := some "alice" },
   { number := 2, title := "", author := "a", state := "MERGED", created_at := none,
     merged_at := some 60, merged_by := some "alice" },
   { number := 3, title := "", author := "a", state := "MERGED", created_at := none,
     merged_at := some 120, merged_by := some "alice" },
   { number := 4, title := "", author := "b", state := "MERGED", created_at := none,
     merged_at := some 180, merged_by := some "bob" }]

/-- Witness for C7 at a concrete qualifying input. -/
theorem compute_bus_factor_spec_witness :
    recentMergedOf 1000 busDemo 90 ≠ [] ∧
    (1 ≤ (compute_bus_factor 1000 busDemo 90).1 ∧
     (compute_bus_factor 1000 busDemo 90).1 ≤ (sortedMergersOf 1000 busDemo 90).length ∧
     recentTotalOf 1000 busDemo 90 ≤
       2 * prefixCount (sortedMergersOf 1000 busDemo 90) (compute_bus_factor 1000 busDemo 90).1 ∧
     ∀ j, j < (compute_bus_factor 1000 busDemo 90).1 →
       2 * prefixCount (sortedMergersOf 1000 busDemo 90) j < recentTotalOf 1000 busDemo 90) :=
  ⟨by with_unfolding_all decide,
   (compute_bus_factor_spec 1000 busDemo 90).2 (by with_unfolding_all decide)⟩

/-! ## Merge-probability scorer (`compute_merge_probability`, analysis.py
lines 187-247) -/

/-- Floor of a rational (kernel-reducible). -/
def ratFloor (q : ℚ) : ℤ := Int.fdiv q.num q.den

/-- Truncation toward zero: the model of Python `int(...)` on a float. -/
def ratTrunc (q : ℚ) : ℤ := Int.tdiv q.num q.den

/-- Round half to even, the rounding used by Python's float formatting. -/
def roundHalfEven (q : ℚ) : ℤ :=
  let f := ratFloor q
  let r := q - (f : ℚ)
  if r < 1 / 2 then f
  else if 1 / 2 < r then f + 1
  else if f % 2 = 0 then f else f + 1

/-- Python `f"{q:.0%}"`: percent with no decimals. -/
def fmtPct (q : ℚ) : String := toString (roundHalfEven (q * 100)) ++ "%"

/-- Python `f"{q:.0f}"`. -/
def fmtF0 (q : ℚ) : String := toString (roundHalfEven q)

/-- Python `f"{q:.1f}"`. -/
def fmtF1 (q : ℚ) : String :=
  let n := roundHalfEven (q * 10)
  (if n < 0 then "-" else "") ++
    toString (n.natAbs / 10) ++ "." ++ toString (n.natAbs % 10)

/-- The `size_bonus` table of the scorer (`.get(size, 0)`). -/
def sizeBonus (s : String) : ℚ :=
  if s = "XS" then 8
  else if s = "S" then 5
  else if s = "M" then 0
  else if s = "L" then -5
  else if s = "XL" then -10
  else 0

/-- Model of `compute_merge_probability`: base 50, then the six sequential
adjustments with their factor strings, then `max(0, min(100, int(score)))`.
Python raises when `target.created_at` is `None` (inside `age_hours`),
modelled by `none`. -/
def compute_merge_probability (now : ℚ) (target : PRSummary)
    (merged closed : List PRSummary) : Option (ℤ × List String) :=
  match PRSummary.age_hours now target with
  | none => none
  | some age =>
    let total := merged.length + closed.length
    let base_rate : ℚ := (merged.length : ℚ) / (total : ℚ)
    let s1 : ℚ := if 0 < total then 50 + (base_rate - 1 / 2) * 30 else 50
    let f1 : List String :=
      if 0 < total then ["Base merge rate: " ++ fmtPct base_rate] else []
    let cat_merged := merged.filter (fun p => p.category = target.category)
    let cat_closed := closed.filter (fun p => p.category = target.category)
    let cat_total := cat_merged.length + cat_closed.length
    let cat_rate : ℚ := (cat_merged.length : ℚ) / (cat_total : ℚ)
    let s2 := if 3 ≤ cat_total then s1 + (cat_rate - 1 / 2) * 15 else s1
    let f2 := if 3 ≤ cat_total then
        f1 ++ [target.category ++ " merge rate: " ++ fmtPct cat_rate] else f1
    let author_merged := merged.filter (fun p => p.author = target.author)
    let author_closed := closed.filter (fun p => p.author = target.author)
    let s3 := if author_merged ≠ [] then
        s2 + min ((author_merged.length : ℚ) * 3) 15 else s2
    let f3 := if author_merged ≠ [] then
        f2 ++ ["Author has " ++ toString author_merged.length ++ " merged PR(s)"] else f2
    let s4 := if author_closed ≠ [] then
        s3 - min ((author_closed.length : ℚ) * 2) 10 else s3
    let s5 := s4 + sizeBonus target.size
    let f5 := f3 ++ ["Size: " ++ target.size ++ " (" ++ toString target.additions ++
        "+/" ++ toString target.deletions ++ "-)"]
    let s6 := if 0 < target.review_count then s5 + 10 else s5 - 5
    let f6 := if 0 < target.review_count then
        f5 ++ ["Has " ++ toString target.review_count ++ " review(s)"]
      else f5 ++ ["No reviews yet"]
    let age_days := age / 24
    let s7 := if 60 < age_days then s6 - 15 else if 30 < age_days then s6 - 8 else s6
    let f7 := if 60 < age_days then
        f6 ++ ["Open for " ++ fmtF0 age_days ++ " days (stale)"]
      else if 30 < age_days then f6 ++ ["Open for " ++ fmtF0 age_days ++ " days"]
      else if age_days < 7 then f6 ++ ["Open for " ++ fmtF1 age_days ++ " days (recent)"]
      else f6
    some (max 0 (min 100 (ratTrunc s7)), f7)

/-- Modelled from the spec (§4.6): the score as the plain additive sum of
the base 50 and the base-rate, category-rate, author-history, size, review
and age adjustments. -/
def specScore (now : ℚ) (target : PRSummary) (merged closed : List PRSummary) : ℚ :=
  let total := merged.length + closed.length
  let baseAdj : ℚ :=
    if 0 < total then ((merged.length : ℚ) / (total : ℚ) - 1 / 2) * 30 else 0
  let cat_merged := merged.filter (fun p => p.category = target.category)
  let cat_closed := closed.filter (fun p => p.category = target.category)
  let cat_total := cat_merged.length + cat_closed.length
  let catAdj : ℚ :=
    if 3 ≤ cat_total then ((cat_merged.length : ℚ) / (cat_total : ℚ) - 1 / 2) * 15 else 0
  let authorAdj : ℚ :=
    min (((merged.filter (fun p => p.author = target.author)).length : ℚ) * 3) 15 -
      min (((closed.filter (fun p => p.author = target.author)).length : ℚ) * 2) 10
  let reviewAdj : ℚ := if 0 < target.review_count then 10 else -5
  let age_days :=
    (((target.merged_at.orElse fun _ => target.closed_at).getD now) -
       target.created_at.getD 0) / 3600 / 24
  let ageAdj : ℚ := if 60 < age_days then -15 else if 30 < age_days then -8 else 0
  50 + baseAdj + catAdj + authorAdj + sizeBonus target.size + reviewAdj + ageAdj

/-- Modelled from the spec (§4.6 as amended): the factor lines in
evaluation order, one appended whenever the corresponding adjustment's
precondition holds, with no line for the author-closed-count penalty. -/
def specFactors (now : ℚ) (target : PRSummary) (merged closed : List PRSummary) :
    List String :=
  let total := merged.length + closed.length
  let cat_merged := merged.filter (fun p => p.category = target.category)
  let cat_closed := closed.filter (fun p => p.category = target.category)
  let cat_total := cat_merged.length + cat_closed.length
  let author_merged := merged.filter (fun p => p.author = target.author)
  let age_days :=
    (((target.merged_at.orElse fun _ => target.closed_at).getD now) -
       target.created_at.getD 0) / 3600 / 24
  (if 0 < total then
      ["Base merge rate: " ++ fmtPct ((merged.length : ℚ) / (total : ℚ))] else []) ++
  (if 3 ≤ cat_total then
      [target.category ++ " merge rate: " ++ fmtPct ((cat_merged.length : ℚ) / (cat_total : ℚ))]
    else []) ++
  (if author_merged ≠ [] then
      ["Author has " ++ toString author_merged.length ++ " merged PR(s)"] else []) ++
  ["Size: " ++ target.size ++ " (" ++ toString target.additions ++
    "+/" ++ toString target.deletions ++ "-)"] ++
  (if 0 < target.review_count then
      ["Has " ++ toString target.review_count ++ " review(s)"] else ["No reviews yet"]) ++
  (if 60 < age_days then ["Open for " ++ fmtF0 age_days ++ " days (stale)"]
   else if 30 < age_days then ["Open for " ++ fmtF0 age_days ++ " days"]
   else if age_days < 7 then ["Open for " ++ fmtF1 age_days ++ " days (recent)"]
   else [])

theorem ite_add_min3 (s : ℚ) (l : List PRSummary) :
    (if l ≠ [] then s + min ((l.length : ℚ) * 3) 15 else s) =
      s + min ((l.length : ℚ) * 3) 15 := by
  split_ifs with h
  · rfl
  · rw [not_not.mp h]
    norm_num

theorem ite_sub_min2 (s : ℚ) (l : List PRSummary) :
    (if l ≠ [] then s - min ((l.length : ℚ) * 2) 10 else s) =
      s - min ((l.length : ℚ) * 2) 10 := by
  split_ifs with h
  · rfl
  · rw [not_not.mp h]
    norm_num

set_option maxHeartbeats 3200000 in
/-- Full characterisation of the scorer when the target has a creation
time: the returned score is the clamped truncation of the additive spec
score, and the factor list is exactly the spec factor list. -/
theorem compute_merge_probability_eq (now : ℚ) (target : PRSummary)
    (merged closed : List PRSummary) (c : ℚ) (hc : target.created_at = some c) :
    compute_merge_probability now target merged closed =
      some (max 0 (min 100 (ratTrunc (specScore now target merged closed))),
        specFactors now target merged closed) := by
  have hage : PRSummary.age_hours now target =
      some ((((target.merged_at.orElse fun _ => target.closed_at).getD now) - c) / 3600) := by
    unfold PRSummary.age_hours
    rw [hc]
    rfl
  unfold compute_merge_probability
  rw [hage]
  unfold specScore specFactors
  rw [hc]
  simp only [Option.getD_some, Option.some_inj, Prod.mk.injEq]
  simp only [ite_add_min3, ite_sub_min2]
  constructor
  · congr 1
    congr 1
    congr 1
    split_ifs <;> ring
  · split_ifs <;> simp

/-- C1: for every target PR with a creation time and arbitrary historical
merged and closed lists, `compute_merge_probability` returns a score equal
to `max(0, min(100, int(s)))` for the additive spec score `s`, and that
score lies in [0, 100]. -/
theorem compute_merge_probability_in_range (now : ℚ) (target : PRSummary)
    (merged closed : List PRSummary) (c : ℚ) (hc : target.created_at = some c) :
    ∃ r, compute_merge_probability now target merged closed = some r ∧
      r.1 = max 0 (min 100 (ratTrunc (specScore now target merged closed))) ∧
      0 ≤ r.1 ∧ r.1 ≤ 100 := by
  refine ⟨_, compute_merge_probability_eq now target merged closed c hc, rfl, ?_, ?_⟩
  · exact le_max_left 0 _
  · have h1 : min 100 (ratTrunc (specScore now target merged closed)) ≤ 100 :=
      min_le_left _ _
    omega

/-- The open target PR used in the C1 witness and C9 counterexample. -/
def probTarget : PRSummary :=
  { number := 1, title := "t", author := "alice", state := "OPEN", created_at := some 0 }

/-- A closed PR by the target's author. -/
def closedByAlice : PRSummary :=
  { number := 2, title := "x", author := "alice", state := "CLOSED", created_at := some 0 }

/-- A closed PR by another author. -/
def closedByBob : PRSummary :=
  { number := 3, title := "y", author := "bob", state := "CLOSED", created_at := some 0 }

/-- A second closed PR by the other author. -/
def closedByBob2 : PRSummary :=
  { number := 4, title := "z", author := "bob", state := "CLOSED", created_at := some 0 }

/-- Witness for C1 at a concrete input. -/
theorem compute_merge_probability_in_range_witness :
    probTarget.created_at = some 0 ∧
    (∃ r, compute_merge_probability 0 probTarget [] [closedByBob] = some r ∧
      r.1 = max 0 (min 100 (ratTrunc (specScore 0 probTarget [] [closedByBob]))) ∧
      0 ≤ r.1 ∧ r.1 ≤ 100) :=
  ⟨rfl, compute_merge_probability_in_range 0 probTarget [] [closedByBob] 0 rfl⟩

/-- The factor list produced at the C9 counterexample input. -/
def probFactors : List String :=
  ["Base merge rate: 0%", "Size: XS (0+/0-)", "No reviews yet",
   "Open for 0.0 days (recent)"]

/-- C9 counterexample: with two closed PRs, one authored by the target's
author, the author-closed-count penalty applies (score 36 instead of the
38 obtained when neither closed PR is the author's), yet the factor list
is identical in both runs — no factor line is appended for the
penalty, refuting the claim that a line is appended whenever an
adjustment's precondition holds. -/
theorem compute_merge_probability_factor_suppressed :
    compute_merge_probability 0 probTarget [] [closedByBob, closedByAlice] =
      some (36, probFactors) ∧
    compute_merge_probability 0 probTarget [] [closedByBob, closedByBob2] =
      some (38, probFactors) ∧
    [closedByBob, closedByAlice].filter
      (fun p => p.author = probTarget.author) ≠ [] := by
  refine ⟨?_, ?_, ?_⟩ <;> with_unfolding_all decide

/-- C9 (amended): the factor list is exactly the spec factor list — in
evaluation order, a line appended whenever the corresponding adjustment's
precondition holds, except that the author-closed-count penalty adjusts
the score without appending any factor line. -/
theorem compute_merge_probability_factors (now : ℚ) (target : PRSummary)
    (merged closed : List PRSummary) (c : ℚ) (hc : target.created_at = some c) :
    ∃ r, compute_merge_probability now target merged closed = some r ∧
      r.2 = specFactors now target merged closed :=
  ⟨_, compute_merge_probability_eq now target merged closed c hc, rfl⟩

/-- Witness for the amended C9 at a concrete input. -/
theorem compute_merge_probability_factors_witness :
    probTarget.created_at = some 0 ∧
    (∃ r, compute_merge_probability 0 probTarget [] [closedByBob, closedByAlice] = some r ∧
      r.2 = specFactors 0 probTarget [] [closedByBob, closedByAlice]) :=
  ⟨rfl, compute_merge_probability_factors 0 probTarget [] [closedByBob, closedByAlice] 0 rfl⟩

/-! ## Record normalizer (`parse_datetime` and `parse_pr_node`, analysis.py
lines 15-50).  Raw GraphQL records are loosely-typed key/value structures:
each key can be absent, present-but-null, or carry a value, and the source
treats absence and null differently in several places. -/

/-- The Python exceptions reachable from `parse_pr_node`. -/
inductive PyErr
  | keyError (k : String)
  | attributeError
  | typeError
  | valueError
deriving DecidableEq

/-- A field of a raw JSON record: the key may be absent, present with a
null value, or present with a value of the schema's type. -/
inductive JField (α : Type)
  | absent
  | null
  | val (v : α)
deriving DecidableEq

/-- An actor object (`author` / `mergedBy`): the `login` key may be
absent. -/
structure AuthorObj where
  login : Option String
deriving DecidableEq

/-- A label node; `name` may be absent (then `l["name"]` raises). -/
structure LabelNode where
  name : Option String
deriving DecidableEq

/-- The labels connection object; `nodes` may be absent or null. -/
structure LabelsObj where
  nodes : JField (List LabelNode)
deriving DecidableEq

/-- The reviews connection object; `totalCount` may be absent. -/
structure ReviewsObj where
  totalCount : Option Int
deriving DecidableEq

/-- The raw PR node as consumed by `parse_pr_node`. -/
structure RawNode where
  author : JField AuthorObj := .absent
  labels : JField LabelsObj := .absent
  createdAt : JField String := .absent
  mergedAt : JField String := .absent
  closedAt : JField String := .absent
  mergedBy : JField AuthorObj := .absent
  number : Option Int := none
  title : Option String := none
  additions : Option Int := none
  deletions : Option Int := none
  changedFiles : Option Int := none
  reviews : JField ReviewsObj := .absent
deriving DecidableEq

/-- Model of `str.replace` for a single-character pattern (the source only
replaces `"Z"`): substitute `sub` for every occurrence of `pat`, left to
right. -/
def replaceChar (pat : Char) (sub : List Char) : List Char → List Char
  | [] => []
  | c :: rest =>
    if c = pat then sub ++ replaceChar pat sub rest
    else c :: replaceChar pat sub rest

/-- The preprocessing `s.replace("Z", "+00:00")` of `parse_datetime`. -/
def pyReplaceZ (s : String) : String :=
  String.mk (replaceChar 'Z' "+00:00".toList s.toList)

/-- Decimal digit value of a character. -/
def digitVal (c : Char) : Option ℕ :=
  if c.isDigit then some (c.toNat - 48) else none

/-- Gregorian leap year. -/
def isLeap (y : ℕ) : Bool := y % 4 = 0 && (y % 100 ≠ 0 || y % 400 = 0)

/-- Days in a month of the proleptic Gregorian calendar. -/
def daysInMonth (y m : ℕ) : ℕ :=
  if m = 2 then (if isLeap y then 29 else 28)
  else if m = 4 || m = 6 || m = 9 || m = 11 then 30
  else 31

/-- Days since 1970-01-01 of a civil date (standard era-based civil
calendar conversion; `y ≥ 1`, so all divisions are on naturals). -/
def daysFromCivil (y m d : ℕ) : ℤ :=
  let y2 := if m ≤ 2 then y - 1 else y
  let era := y2 / 400
  let yoe := y2 - era * 400
  let mp := if 2 < m then m - 3 else m + 9
  let doy := (153 * mp + 2) / 5 + d - 1
  let doe := yoe * 365 + yoe / 4 - yoe / 100 + doy
  (era : ℤ) * 146097 + (doe : ℤ) - 719468

/-- Parse exactly two digits. -/
def parse2 : List Char → Option (ℕ × List Char)
  | c1 :: c2 :: rest => do
    let d1 ← digitVal c1
    let d2 ← digitVal c2
    pure (d1 * 10 + d2, rest)
  | _ => none

/-- Parse the trailing UTC offset: empty (naive, treated as UTC here) or
`±HH:MM`; the result is the offset in seconds. -/
def parseOffset : List Char → Option ℤ
  | [] => some 0
  | '+' :: rest => do
    let (oh, rest1) ← parse2 rest
    match rest1 with
    | ':' :: rest2 => do
      let (om, rest3) ← parse2 rest2
      if rest3 = [] ∧ oh ≤ 23 ∧ om ≤ 59 then pure ((oh : ℤ) * 3600 + (om : ℤ) * 60)
      else none
    | _ => none
  | '-' :: rest => do
    let (oh, rest1) ← parse2 rest
    match rest1 with
    | ':' :: rest2 => do
      let (om, rest3) ← parse2 rest2
      if rest3 = [] ∧ oh ≤ 23 ∧ om ≤ 59 then pure (-((oh : ℤ) * 3600 + (om : ℤ) * 60))
      else none
    | _ => none
  | _ => none

/-- Consume one expected literal character. -/
def expectChar (c : Char) : List Char → Option (List Char)
  | x :: rest => if x = c then some rest else none
  | [] => none

/-- Parse exactly four digits. -/
def parse4 (l : List Char) : Option (ℕ × List Char) := do
  let (a, r1) ← parse2 l
  let (b, r2) ← parse2 r1
  pure (a * 100 + b, r2)

/-- Validity check and value of a parsed civil timestamp: seconds on the
UTC timeline, or `none` for an out-of-range component. -/
def mkCivilTime (y mo d h mi se : ℕ) (off : ℤ) : Option ℚ :=
  if 1 ≤ y ∧ 1 ≤ mo ∧ mo ≤ 12 ∧ 1 ≤ d ∧ d ≤ daysInMonth y mo ∧
      h ≤ 23 ∧ mi ≤ 59 ∧ se ≤ 59 then
    some (((daysFromCivil y mo d * 86400 + (h : ℤ) * 3600 + (mi : ℤ) * 60 +
      (se : ℤ) - off : ℤ) : ℚ))
  else none

/-- Model of `datetime.fromisoformat`, restricted to the
`YYYY-MM-DDTHH:MM:SS[±HH:MM]` shapes GitHub timestamps take after the `Z`
replacement (fractional seconds are not modelled; awareness is erased, the
result being seconds on the UTC timeline).  `none` models `ValueError`. -/
def fromisoformat (s : String) : Option ℚ :=
  match parse4 s.toList with
  | none => none
  | some (y, r1) =>
    match expectChar '-' r1 with
    | none => none
    | some r2 =>
      match parse2 r2 with
      | none => none
      | some (mo, r3) =>
        match expectChar '-' r3 with
        | none => none
        | some r4 =>
          match parse2 r4 with
          | none => none
          | some (d, r5) =>
            match expectChar 'T' r5 with
            | none => none
            | some r6 =>
              match parse2 r6 with
              | none => none
              | some (h, r7) =>
                match expectChar ':' r7 with
                | none => none
                | some r8 =>
                  match parse2 r8 with
                  | none => none
                  | some (mi, r9) =>
                    match expectChar ':' r9 with
                    | none => none
                    | some r10 =>
                      match parse2 r10 with
                      | none => none
                      | some (se, r11) =>
                        match parseOffset r11 with
                        | none => none
                        | some off => mkCivilTime y mo d h mi se off

/-- Model of `parse_datetime` (analysis.py lines 15-20): falsy input
(`None` or `""`) gives `None`; otherwise every `"Z"` is replaced by
`"+00:00"` and the string is parsed, a parse failure raising
`ValueError`. -/
def parse_datetime (s : Option String) : Except PyErr (Option ℚ) :=
  match s with
  | none => .ok none
  | some s =>
    if s = "" then .ok none
    else
      match fromisoformat (pyReplaceZ s) with
      | some t => .ok (some t)
      | none => .error .valueError

/-- `(node.get("author") or {}).get("login", "ghost")`. -/
def authorLogin : JField AuthorObj → String
  | .val a => a.login.getD "ghost"
  | _ => "ghost"

/-- `(node.get("mergedBy") or {}).get("login")`. -/
def mergedByLogin : JField AuthorObj → Option String
  | .val a => a.login
  | _ => none

/-- The comprehension body `l["name"] for l in nodes` (first missing
`name` raises `KeyError`). -/
def labelNames : List LabelNode → Except PyErr (List String)
  | [] => .ok []
  | l :: rest =>
    match l.name with
    | none => .error (.keyError "name")
    | some nm => (labelNames rest).map (nm :: ·)

/-- `node.get("labels", {}).get("nodes", [])` and the comprehension:
absent key falls back to `{}` then `[]`, but a null value raises
(`None.get` / iterating `None`). -/
def extractLabels : JField LabelsObj → Except PyErr (List String)
  | .absent => .ok []
  | .null => .error .attributeError
  | .val lb =>
    match lb.nodes with
    | .absent => .ok []
    | .null => .error .typeError
    | .val ns => labelNames ns

/-- `node.get("reviews", {}).get("totalCount", 0)`. -/
def extractReviews : JField ReviewsObj → Except PyErr Int
  | .absent => .ok 0
  | .null => .error .attributeError
  | .val r => .ok (r.totalCount.getD 0)

/-- `parse_datetime(node["createdAt"])`: an absent key raises `KeyError`;
a null value reaches `parse_datetime` as `None`. -/
def extractCreated : JField String → Except PyErr (Option ℚ)
  | .absent => .error (.keyError "createdAt")
  | .null => parse_datetime none
  | .val s => parse_datetime (some s)

/-- `parse_datetime(node.get(k))` for the optional timestamps. -/
def extractOptTime : JField String → Except PyErr (Option ℚ)
  | .absent => parse_datetime none
  | .null => parse_datetime none
  | .val s => parse_datetime (some s)

/-- Model of `parse_pr_node` (analysis.py lines 23-50). -/
def parse_pr_node (node : RawNode) (state : String) : Except PyErr PRSummary :=
  match extractLabels node.labels with
  | .error e => .error e
  | .ok labels =>
    match extractCreated node.createdAt with
    | .error e => .error e
    | .ok created =>
      match extractOptTime node.mergedAt with
      | .error e => .error e
      | .ok merged =>
        match extractOptTime node.closedAt with
        | .error e => .error e
        | .ok closed =>
          match node.number with
          | none => .error (.keyError "number")
          | some num =>
            match node.title with
            | none => .error (.keyError "title")
            | some title =>
              match extractReviews node.reviews with
              | .error e => .error e
              | .ok rc =>
                .ok { number := num, title := title,
                      author := authorLogin node.author, state := state,
                      created_at := created, merged_at := merged,
                      closed_at := closed,
                      merged_by := mergedByLogin node.mergedBy,
                      labels := labels,
                      additions := node.additions.getD 0,
                      deletions := node.deletions.getD 0,
                      changed_files := node.changedFiles.getD 0,
                      review_count := rc,
                      category := categorize_pr title labels,
                      time_to_merge_hours :=
                        match merged, created with
                        | some m, some c => some ((m - c) / 3600)
                        | _, _ => none }

/-- Did an `Except` computation succeed? -/
def exceptOk {ε α : Type} : Except ε α → Bool
  | .ok _ => true
  | .error _ => false

/-- A present timestamp string parses (or is empty, which normalizes to
absence). -/
def timeStrOk (s : String) : Bool :=
  decide (s = "") || (fromisoformat (pyReplaceZ s)).isSome

/-- A timestamp field does not raise inside `parse_datetime`. -/
def timeFieldOk : JField String → Bool
  | .absent => true
  | .null => true
  | .val s => timeStrOk s

/-- The labels extraction does not raise. -/
def labelsOk : JField LabelsObj → Bool
  | .absent => true
  | .null => false
  | .val lb =>
    match lb.nodes with
    | .absent => true
    | .null => false
    | .val ns => ns.all (fun l => l.name.isSome)

/-- The reviews extraction does not raise. -/
def reviewsOk : JField ReviewsObj → Bool
  | .null => false
  | _ => true

/-- The exact success condition of `parse_pr_node`. -/
def nodeOk (node : RawNode) : Bool :=
  node.number.isSome && node.title.isSome &&
  decide (node.createdAt ≠ JField.absent) &&
  timeFieldOk node.createdAt && timeFieldOk node.mergedAt && timeFieldOk node.closedAt &&
  labelsOk node.labels && reviewsOk node.reviews

theorem exceptOk_map {ε α β : Type} (f : α → β) (e : Except ε α) :
    exceptOk (e.map f) = exceptOk e := by
  cases e <;> rfl

theorem labelNames_ok (ns : List LabelNode) :
    exceptOk (labelNames ns) = ns.all (fun l => l.name.isSome) := by
  induction ns with
  | nil => rfl
  | cons l rest ih =>
    cases hn : l.name with
    | none => simp [labelNames, hn, exceptOk]
    | some nm => simp [labelNames, hn, exceptOk_map, ih]

theorem extractLabels_ok (f : JField LabelsObj) :
    exceptOk (extractLabels f) = labelsOk f := by
  cases f with
  | absent => rfl
  | null => rfl
  | val lb =>
    cases hn : lb.nodes with
    | absent => simp [extractLabels, labelsOk, hn, exceptOk]
    | null => simp [extractLabels, labelsOk, hn, exceptOk]
    | val ns => simp [extractLabels, labelsOk, hn, labelNames_ok]

theorem parse_datetime_ok (s : String) :
    exceptOk (parse_datetime (some s)) = timeStrOk s := by
  unfold parse_datetime timeStrOk
  by_cases hs : s = ""
  · simp [hs, exceptOk]
  · simp only [if_neg hs, decide_eq_true_eq]
    cases hf : fromisoformat (pyReplaceZ s) with
    | none => simp [hs, hf, exceptOk]
    | some t => simp [hs, hf, exceptOk]

theorem extractCreated_ok (f : JField String) :
    exceptOk (extractCreated f) = (decide (f ≠ JField.absent) && timeFieldOk f) := by
  cases f with
  | absent => rfl
  | null => rfl
  | val s => simp [extractCreated, timeFieldOk, parse_datetime_ok]

theorem extractOptTime_ok (f : JField String) :
    exceptOk (extractOptTime f) = timeFieldOk f := by
  cases f with
  | absent => rfl
  | null => rfl
  | val s => simp [extractOptTime, timeFieldOk, parse_datetime_ok]

theorem extractReviews_ok (f : JField ReviewsObj) :
    exceptOk (extractReviews f) = reviewsOk f := by
  cases f <;> rfl

theorem parse_isOk_aux (node : RawNode) (state : String) :
    exceptOk (parse_pr_node node state) = nodeOk node := by
  unfold parse_pr_node nodeOk
  cases hl : extractLabels node.labels with
  | error e =>
    have h1 := extractLabels_ok node.labels
    rw [hl] at h1
    simp [exceptOk, ← h1]
  | ok labels =>
    have h1 := extractLabels_ok node.labels
    rw [hl] at h1
    cases hc : extractCreated node.createdAt with
    | error e =>
      have h2 := extractCreated_ok node.createdAt
      rw [hc] at h2
      simp only [exceptOk] at h2
      rcases (Bool.and_eq_false_iff.mp h2.symm) with h | h <;> simp [exceptOk, h]
    | ok created =>
      have h2 := extractCreated_ok node.createdAt
      rw [hc] at h2
      cases hm : extractOptTime node.mergedAt with
      | error e =>
        have h3 := extractOptTime_ok node.mergedAt
        rw [hm] at h3
        simp [exceptOk, ← h3]
      | ok merged =>
        have h3 := extractOptTime_ok node.mergedAt
        rw [hm] at h3
        cases hcl : extractOptTime node.closedAt with
        | error e =>
          have h4 := extractOptTime_ok node.closedAt
          rw [hcl] at h4
          simp [exceptOk, ← h4]
        | ok closed =>
          have h4 := extractOptTime_ok node.closedAt
          rw [hcl] at h4
          cases hnum : node.number with
          | none => simp [exceptOk, hnum]
          | some num =>
            cases htitle : node.title with
            | none => simp [exceptOk, htitle]
            | some title =>
              cases hr : extractReviews node.reviews with
              | error e =>
                have h5 := extractReviews_ok node.reviews
                rw [hr] at h5
                simp [exceptOk, ← h5]
              | ok rc =>
                have h5 := extractReviews_ok node.reviews
                rw [hr] at h5
                simp only [exceptOk] at h1 h2 h3 h4 h5
                have h2' := h2.symm
                rw [Bool.and_eq_true] at h2'
                obtain ⟨hc1, hc2⟩ := h2'
                simp [exceptOk, hnum, htitle, h1.symm, hc1, hc2, h3.symm,
                  h4.symm, h5.symm]

theorem parse_fields_aux (node : RawNode) (state : String) (pr : PRSummary)
    (h : parse_pr_node node state = .ok pr) :
    extractCreated node.createdAt = .ok pr.created_at ∧
    extractOptTime node.mergedAt = .ok pr.merged_at ∧
    pr.state = state ∧
    pr.time_to_merge_hours =
      (match pr.merged_at, pr.created_at with
       | some m, some c => some ((m - c) / 3600)
       | _, _ => none) := by
  unfold parse_pr_node at h
  split at h
  · simp at h
  rename_i labels hlabels
  split at h
  · simp at h
  rename_i created hcreated
  split at h
  · simp at h
  rename_i merged hmerged
  split at h
  · simp at h
  rename_i closed hclosed
  split at h
  · simp at h
  rename_i num hnum
  split at h
  · simp at h
  rename_i title htitle
  split at h
  · simp at h
  rename_i rc hrc
  rw [Except.ok.injEq] at h
  subst h
  exact ⟨hcreated, hmerged, rfl, rfl⟩

/-- C4 (amended): for every PRSummary produced by `parse_pr_node`,
`time_to_merge_hours` is present iff both `merged_at` and `created_at` are
present — the state is not consulted. -/
theorem parse_pr_node_time_iff (node : RawNode) (state : String) (pr : PRSummary)
    (h : parse_pr_node node state = .ok pr) :
    pr.time_to_merge_hours.isSome = true ↔
      (pr.merged_at.isSome = true ∧ pr.created_at.isSome = true) := by
  obtain ⟨-, -, -, ht⟩ := parse_fields_aux node state pr h
  rw [ht]
  cases pr.merged_at <;> cases pr.created_at <;> simp

/-- A raw record fetched under the CLOSED state filter that nevertheless
carries a `mergedAt` timestamp. -/
def closedWithMergeNode : RawNode :=
  { createdAt := .val "2024-01-15T10:00:00Z", mergedAt := .val "2024-01-15T11:00:00Z",
    number := some 7, title := some "x" }

/-- The `time_to_merge_hours` of the parsed counterexample record. -/
def closedWithMergeTime : Option ℚ :=
  match parse_pr_node closedWithMergeNode "CLOSED" with
  | .ok p => p.time_to_merge_hours
  | .error _ => none

/-- The state of the parsed counterexample record. -/
def closedWithMergeState : String :=
  match parse_pr_node closedWithMergeNode "CLOSED" with
  | .ok p => p.state
  | .error _ => ""

/-- C4 counterexample: a record normalized under state CLOSED with both
timestamps present gets `time_to_merge_hours = 1` even though its state is
not MERGED, refuting the claimed iff as stated. -/
theorem parse_pr_node_time_state_counterexample :
    closedWithMergeTime = some 1 ∧ closedWithMergeState = "CLOSED" ∧
    exceptOk (parse_pr_node closedWithMergeNode "CLOSED") = true := by
  refine ⟨?_, ?_, ?_⟩ <;> with_unfolding_all decide

/-- The summary parsed from the counterexample node under state MERGED
(used to witness the amended C4). -/
def mergedOkPR : PRSummary :=
  match parse_pr_node closedWithMergeNode "MERGED" with
  | .ok p => p
  | .error _ => probTarget

/-- Witness for the amended C4 at a concrete record. -/
theorem parse_pr_node_time_iff_witness :
    mergedOkPR.time_to_merge_hours.isSome = true ↔
      (mergedOkPR.merged_at.isSome = true ∧ mergedOkPR.created_at.isSome = true) :=
  parse_pr_node_time_iff closedWithMergeNode "MERGED" mergedOkPR
    (by with_unfolding_all rfl)

/-- C5 (amended): `parse_pr_node` fails exactly when the `number`,
`title`, or `createdAt` key is missing, when `labels` or `reviews` is
present but null (or `labels.nodes` is null, or a label entry has no
`name`), or when a present non-empty timestamp string does not parse;
absence (or null) of every other optional value yields a default instead
of an error. -/
theorem parse_pr_node_failure_modes (node : RawNode) (state : String) :
    exceptOk (parse_pr_node node state) = nodeOk node :=
  parse_isOk_aux node state

/-- A record whose required keys are all present and well formed but whose
`labels` key is present with value null. -/
def labelsNullNode : RawNode :=
  { labels := .null, createdAt := .val "2024-01-15T10:30:00Z",
    number := some 1, title := some "t" }

/-- C5 counterexample: with `number`, `title` and `createdAt` all present
(and the timestamp valid), a null `labels` value still raises
(`AttributeError`), refuting "fails exactly when number, title, or
created_at is missing". -/
theorem parse_pr_node_labels_null_raises :
    parse_pr_node labelsNullNode "OPEN" = .error PyErr.attributeError ∧
    labelsNullNode.number.isSome = true ∧
    labelsNullNode.title.isSome = true ∧
    labelsNullNode.createdAt ≠ JField.absent ∧
    timeFieldOk labelsNullNode.createdAt = true := by
  refine ⟨rfl, rfl, rfl, by decide, by with_unfolding_all decide⟩

/-- C10: `parse_datetime` maps `None` and `""` to `None`; every other
string is parsed after replacing `"Z"` with `"+00:00"`; and a record whose
required or optional timestamp key is present but null or empty is
normalized by `parse_pr_node` to an absent timestamp without raising. -/
theorem parse_datetime_null_empty :
    parse_datetime none = .ok none ∧
    parse_datetime (some "") = .ok none ∧
    (∀ s : String, s ≠ "" →
      parse_datetime (some s) =
        match fromisoformat (pyReplaceZ s) with
        | some t => .ok (some t)
        | none => .error PyErr.valueError) ∧
    (∀ (node : RawNode) (state : String),
      node.number.isSome = true → node.title.isSome = true →
      labelsOk node.labels = true → reviewsOk node.reviews = true →
      timeFieldOk node.mergedAt = true → timeFieldOk node.closedAt = true →
      (node.createdAt = JField.null ∨ node.createdAt = JField.val "") →
      ∃ pr, parse_pr_node node state = .ok pr ∧ pr.created_at = none) ∧
    (∀ (node : RawNode) (state : String),
      node.number.isSome = true → node.title.isSome = true →
      labelsOk node.labels = true → reviewsOk node.reviews = true →
      node.createdAt ≠ JField.absent → timeFieldOk node.createdAt = true →
      timeFieldOk node.closedAt = true →
      (node.mergedAt = JField.null ∨ node.mergedAt = JField.val "") →
      ∃ pr, parse_pr_node node state = .ok pr ∧ pr.merged_at = none) := by
  refine ⟨rfl, rfl, fun s hs => ?_, ?_, ?_⟩
  · simp only [parse_datetime]
    rw [if_neg hs]
  · intro node state hnum htit hlab hrev hmerg hclos hcreated
    have hcok : timeFieldOk node.createdAt = true := by
      rcases hcreated with hc | hc <;> simp [hc, timeFieldOk, timeStrOk]
    have hcne : decide (node.createdAt ≠ JField.absent) = true := by
      rcases hcreated with hc | hc <;> simp [hc]
    have hok : nodeOk node = true := by
      unfold nodeOk
      simp [hnum, htit, hlab, hrev, hmerg, hclos, hcok, hcne]
    have hOk2 := parse_isOk_aux node state
    rw [hok] at hOk2
    cases hp : parse_pr_node node state with
    | error e => rw [hp] at hOk2; simp [exceptOk] at hOk2
    | ok pr =>
      refine ⟨pr, rfl, ?_⟩
      have hcr := (parse_fields_aux node state pr hp).1
      rcases hcreated with hc | hc <;> rw [hc] at hcr <;>
        simp [extractCreated, parse_datetime] at hcr <;> exact hcr.symm
  · intro node state hnum htit hlab hrev hcne hcok hclos hmerged
    have hmok : timeFieldOk node.mergedAt = true := by
      rcases hmerged with hm | hm <;> simp [hm, timeFieldOk, timeStrOk]
    have hcne2 : decide (node.createdAt ≠ JField.absent) = true := by
      simp [hcne]
    have hok : nodeOk node = true := by
      unfold nodeOk
      simp [hnum, htit, hlab, hrev, hcne2, hcok, hclos, hmok]
    have hOk2 := parse_isOk_aux node state
    rw [hok] at hOk2
    cases hp : parse_pr_node node state with
    | error e => rw [hp] at hOk2; simp [exceptOk] at hOk2
    | ok pr =>
      refine ⟨pr, rfl, ?_⟩
      have hmr := (parse_fields_aux node state pr hp).2.1
      rcases hmerged with hm | hm <;> rw [hm] at hmr <;>
        simp [extractOptTime, parse_datetime] at hmr <;> exact hmr.symm

/-- A record with a null `createdAt` and an empty `mergedAt`. -/
def nullTimesNode : RawNode :=
  { createdAt := .null, mergedAt := .val "", number := some 9, title := some "n" }

/-- Witness for C10 at a concrete record with a null required timestamp. -/
theorem parse_datetime_null_empty_witness :
    nullTimesNode.createdAt = JField.null ∧
    (∃ pr, parse_pr_node nullTimesNode "OPEN" = .ok pr ∧ pr.created_at = none) :=
  ⟨rfl, parse_datetime_null_empty.2.2.2.1 nullTimesNode "OPEN" rfl rfl (by decide)
    (by decide) (by decide) (by decide) (Or.inl rfl)⟩

end GHScope
